import Mathlib

/-!
Verification of the FTL controller runtime and build engine against its
natural-language specification.  The definitions below are shallow embeddings
of the Go source (`db/dalerrs`, `backend/controller/dal`,
`backend/controller/sql/schema/001_init.sql`, `buildengine/engine.go`);
machine integers are modelled as `Int`/`Nat`, database tables as lists of
rows, and fallible operations as `Except`/`Option` results.
-/

set_option autoImplicit false
set_option maxRecDepth 8000

namespace FTL

/-! ## Go error model

Go errors are a chain of wrappings around a base error.  `fmt.Errorf("%s: %w",
msg, err)` is `wrap msg err`; the three DAL sentinels (`ErrConflict`,
`ErrNotFound`, `ErrConstraint` from `db/dalerrs`) and the two driver "no rows"
sentinels are dedicated constructors so that `errors.Is` identity comparison is
structural equality on them.  `pgError` embeds `*pgconn.PgError` with the
fields `TranslatePGError` reads. -/

inductive GoError where
  /-- `*pgconn.PgError` with code, message, constraint name and table name. -/
  | pgError (code message constraintName tableName : String)
  /-- `database/sql.ErrNoRows`. -/
  | sqlErrNoRows
  /-- `pgx.ErrNoRows`. -/
  | pgxErrNoRows
  /-- `dalerrs.ErrConflict`. -/
  | errConflict
  /-- `dalerrs.ErrNotFound`. -/
  | errNotFound
  /-- `dalerrs.ErrConstraint`. -/
  | errConstraint
  /-- `fmt.Errorf("%s: %w", msg, inner)`. -/
  | wrap (msg : String) (inner : GoError)
  /-- Any other opaque error with the given message. -/
  | other (message : String)
deriving DecidableEq

/-- `errors.Is(e, target)`: compare, then unwrap repeatedly. -/
def errIs : GoError → GoError → Bool
  | .wrap m inner, t => (GoError.wrap m inner == t) || errIs inner t
  | e, t => e == t

/-- `errors.As(e, &pgErr)` for `*pgconn.PgError`: find the first `pgError` in
the wrap chain, returning `(code, message, constraintName, tableName)`. -/
def errAsPg : GoError → Option (String × String × String × String)
  | .pgError c m cn tn => some (c, m, cn, tn)
  | .wrap _ inner => errAsPg inner
  | _ => none

/-- `err.Error()`: the rendered message of an error chain. -/
def messageOf : GoError → String
  | .pgError _ m _ _ => m
  | .sqlErrNoRows => "sql: no rows in result set"
  | .pgxErrNoRows => "no rows in result set"
  | .errConflict => "conflict"
  | .errNotFound => "not found"
  | .errConstraint => "constraint violation"
  | .wrap m inner => m ++ ": " ++ messageOf inner
  | .other m => m

/-- Go `strings.HasPrefix`: does `s` start with `p`. -/
def hasPre (s p : String) : Bool :=
  p.data.isPrefixOf s.data

/-- Go `strings.TrimPrefix`: drop `p` from the front of `s` when present. -/
def trimPre (s p : String) : String :=
  if p.data.isPrefixOf s.data then ⟨s.data.drop p.data.length⟩ else s

/-- Go `strings.TrimSuffix`: drop `p` from the end of `s` when present. -/
def trimSuf (s p : String) : String :=
  if p.data.isSuffixOf s.data then ⟨s.data.take (s.data.length - p.data.length)⟩ else s

/-! Postgres error codes from `github.com/jackc/pgerrcode`. -/

def ForeignKeyViolation : String := "23503"

def UniqueViolation : String := "23505"

def IntegrityConstraintViolation : String := "23000"

def RestrictViolation : String := "23001"

def NotNullViolation : String := "23502"

def CheckViolation : String := "23514"

def ExclusionViolation : String := "23P01"

/-- `dalerrs.IsNotFound`: is the error a driver-level "no rows" error. -/
def IsNotFound (err : GoError) : Bool :=
  errIs err .sqlErrNoRows || errIs err .pgxErrNoRows

/-- `dalerrs.TranslatePGError` (nil input excluded: the Go function returns
nil for nil). -/
def TranslatePGError (err : GoError) : GoError :=
  match errAsPg err with
  | some (code, message, constraintName, tableName) =>
    if code = ForeignKeyViolation then
      .wrap (trimSuf (trimPre constraintName (tableName ++ "_")) "_id_fkey") .errNotFound
    else if code = UniqueViolation then
      .wrap message .errConflict
    else if code = IntegrityConstraintViolation ∨ code = RestrictViolation ∨
        code = NotNullViolation ∨ code = CheckViolation ∨ code = ExclusionViolation then
      .wrap message .errConstraint
    else
      err
  | none =>
    if IsNotFound err then .errNotFound else err

/-- Claim C3: `TranslatePGError` maps every foreign-key violation to an error
wrapping `ErrNotFound` exposing the constraint-name stem, every unique
violation to an error wrapping `ErrConflict`, every
integrity/restrict/not-null/check/exclusion violation to an error wrapping
`ErrConstraint`, every "no rows" error to `ErrNotFound`, and leaves any other
error unchanged — both a `PgError` whose code is outside the five handled
categories (the Go `default:` branch) and a non-`PgError`, non-"no rows"
error. -/
theorem c3_translate_pg_error :
    (∀ e message constraintName tableName,
      errAsPg e = some (ForeignKeyViolation, message, constraintName, tableName) →
      TranslatePGError e =
        .wrap (trimSuf (trimPre constraintName (tableName ++ "_")) "_id_fkey") .errNotFound ∧
      errIs (TranslatePGError e) .errNotFound = true) ∧
    (∀ e message constraintName tableName,
      errAsPg e = some (UniqueViolation, message, constraintName, tableName) →
      TranslatePGError e = .wrap message .errConflict ∧
      errIs (TranslatePGError e) .errConflict = true) ∧
    (∀ e code message constraintName tableName,
      errAsPg e = some (code, message, constraintName, tableName) →
      (code = IntegrityConstraintViolation ∨ code = RestrictViolation ∨
        code = NotNullViolation ∨ code = CheckViolation ∨ code = ExclusionViolation) →
      TranslatePGError e = .wrap message .errConstraint ∧
      errIs (TranslatePGError e) .errConstraint = true) ∧
    (∀ e code message constraintName tableName,
      errAsPg e = some (code, message, constraintName, tableName) →
      code ≠ ForeignKeyViolation → code ≠ UniqueViolation →
      code ≠ IntegrityConstraintViolation → code ≠ RestrictViolation →
      code ≠ NotNullViolation → code ≠ CheckViolation → code ≠ ExclusionViolation →
      TranslatePGError e = e) ∧
    (∀ e, errAsPg e = none → IsNotFound e = true → TranslatePGError e = .errNotFound) ∧
    (∀ e, errAsPg e = none → IsNotFound e = false → TranslatePGError e = e) := by
  refine ⟨?_, ?_, ?_, ?_, ?_, ?_⟩
  · intro e message constraintName tableName h
    simp [TranslatePGError, h, ForeignKeyViolation, errIs]
  · intro e message constraintName tableName h
    simp [TranslatePGError, h, ForeignKeyViolation, UniqueViolation, errIs]
  · intro e code message constraintName tableName h hcode
    have hne1 : code ≠ ForeignKeyViolation := by
      rcases hcode with h1 | h1 | h1 | h1 | h1 <;> subst h1 <;> decide
    have hne2 : code ≠ UniqueViolation := by
      rcases hcode with h1 | h1 | h1 | h1 | h1 <;> subst h1 <;> decide
    simp [TranslatePGError, h, hne1, hne2, hcode, errIs]
  · intro e code message constraintName tableName h h1 h2 h3 h4 h5 h6 h7
    simp [TranslatePGError, h, h1, h2, h3, h4, h5, h6, h7]
  · intro e h hnf
    simp [TranslatePGError, h, hnf]
  · intro e h hnf
    simp [TranslatePGError, h, hnf]

/-- Witness for C3 at concrete inputs: a foreign-key violation on
`async_calls.lease_id`, a unique violation, a not-null violation, a
serialization-failure `PgError` (code 40001, the `default:` branch — passed
through unchanged), a bare `pgx.ErrNoRows`, and an opaque error. -/
theorem c3_translate_pg_error_witness :
    TranslatePGError (.pgError "23503" "fk" "async_calls_lease_id_fkey" "async_calls") =
      .wrap "lease" .errNotFound ∧
    errIs (TranslatePGError (.pgError "23505" "dup" "deployments_unique_idx" "deployments"))
      .errConflict = true ∧
    errIs (TranslatePGError (.pgError "23502" "null value" "" "runners")) .errConstraint = true ∧
    TranslatePGError (.pgError "40001" "serialization failure" "" "deployments") =
      .pgError "40001" "serialization failure" "" "deployments" ∧
    TranslatePGError .pgxErrNoRows = .errNotFound ∧
    TranslatePGError (.other "boom") = .other "boom" := by
  refine ⟨?_, ?_, ?_, ?_, ?_, ?_⟩
  · have h := (c3_translate_pg_error.1 (.pgError "23503" "fk" "async_calls_lease_id_fkey"
      "async_calls") "fk" "async_calls_lease_id_fkey" "async_calls" (by rfl)).1
    rw [h]; decide
  · exact (c3_translate_pg_error.2.1 (.pgError "23505" "dup" "deployments_unique_idx"
      "deployments") "dup" "deployments_unique_idx" "deployments" (by rfl)).2
  · exact (c3_translate_pg_error.2.2.1 (.pgError "23502" "null value" "" "runners") "23502"
      "null value" "" "runners" (by rfl) (by right; right; left; rfl)).2
  · exact c3_translate_pg_error.2.2.2.1
      (.pgError "40001" "serialization failure" "" "deployments") "40001"
      "serialization failure" "" "deployments" (by rfl) (by decide) (by decide) (by decide)
      (by decide) (by decide) (by decide) (by decide)
  · exact c3_translate_pg_error.2.2.2.2.1 .pgxErrNoRows (by rfl) (by rfl)
  · exact c3_translate_pg_error.2.2.2.2.2 (.other "boom") (by rfl) (by rfl)

/-! ## Deployments table and the `deployments_unique_idx` partial index

From `backend/controller/sql/schema/001_init.sql`:
`CREATE UNIQUE INDEX deployments_unique_idx ON deployments (module_id) WHERE
min_replicas > 0;` — at most one deployment per module may have
`min_replicas > 0`.  A statement whose result would violate the index fails
with a Postgres unique violation and the transaction leaves the table
unchanged; the DAL funnels that error through `TranslatePGError`. -/

structure DeploymentRow where
  id : Nat
  moduleId : Nat
  key : String
  minReplicas : Int
deriving DecidableEq

/-- The predicate enforced by `deployments_unique_idx`: no two distinct rows
share a `module_id` while both have `min_replicas > 0`. -/
def deploymentsUniqueIdxOK : List DeploymentRow → Bool
  | [] => true
  | r :: rest =>
    (if r.minReplicas > 0 then
      rest.all (fun s => !(s.moduleId == r.moduleId && decide (s.minReplicas > 0)))
    else true) && deploymentsUniqueIdxOK rest

/-- The unique-violation error Postgres raises for `deployments_unique_idx`. -/
def deploymentsUniqueViolation : GoError :=
  .pgError UniqueViolation
    "duplicate key value violates unique constraint \"deployments_unique_idx\""
    "deployments_unique_idx" "deployments"

/-- `SetDeploymentDesiredReplicas` as executed by Postgres: update the row
with the given key, then enforce `deployments_unique_idx`.  On violation the
statement fails, the table is unchanged, and the error reaches the caller
through `TranslatePGError`. -/
def updatedDeployments (rows : List DeploymentRow) (key : String) (n : Int) :
    List DeploymentRow :=
  rows.map (fun r => if r.key == key then { r with minReplicas := n } else r)

def setDeploymentReplicas (rows : List DeploymentRow) (key : String) (n : Int) :
    List DeploymentRow × Option GoError :=
  if deploymentsUniqueIdxOK (updatedDeployments rows key n) then
    (updatedDeployments rows key n, none)
  else (rows, some (TranslatePGError deploymentsUniqueViolation))

/-- Claim C1: at most one deployment per module has `min_replicas > 0`; an
update that would give a second deployment of the same module a positive
`min_replicas` fails with an error satisfying the *conflict* sentinel and
leaves the table unchanged.  Scenario S4: with d2 active for module M, setting
d1.min_replicas = 1 directly is a conflict. -/
theorem c1_deployments_unique_index :
    (∀ rows key n,
      deploymentsUniqueIdxOK rows = true →
      deploymentsUniqueIdxOK (setDeploymentReplicas rows key n).1 = true) ∧
    (∀ rows key n,
      deploymentsUniqueIdxOK (updatedDeployments rows key n) = false →
      (setDeploymentReplicas rows key n).1 = rows ∧
      ∃ e, (setDeploymentReplicas rows key n).2 = some e ∧ errIs e .errConflict = true) ∧
    ((setDeploymentReplicas
        [⟨1, 7, "M-d1", 0⟩, ⟨2, 7, "M-d2", 2⟩] "M-d1" 1).1 =
      [⟨1, 7, "M-d1", 0⟩, ⟨2, 7, "M-d2", 2⟩] ∧
      ∃ e, (setDeploymentReplicas
        [⟨1, 7, "M-d1", 0⟩, ⟨2, 7, "M-d2", 2⟩] "M-d1" 1).2 = some e ∧
        errIs e .errConflict = true) := by
  refine ⟨?_, ?_, ?_⟩
  · intro rows key n h
    unfold setDeploymentReplicas
    split
    · rename_i hok
      exact hok
    · exact h
  · intro rows key n h
    unfold setDeploymentReplicas
    split
    · rename_i hok
      rw [h] at hok
      exact absurd hok (by simp)
    · exact ⟨rfl, TranslatePGError deploymentsUniqueViolation, rfl, by decide⟩
  · refine ⟨?_, ?_⟩
    · decide
    · exact ⟨_, rfl, by decide⟩

/-- Witness for C1: the invariant-preservation and conflict branches applied
at scenario S4's concrete table. -/
theorem c1_deployments_unique_index_witness :
    deploymentsUniqueIdxOK
      (setDeploymentReplicas [⟨1, 7, "M-d1", 0⟩, ⟨2, 7, "M-d2", 2⟩] "M-d1" 1).1 = true ∧
    (setDeploymentReplicas [⟨1, 7, "M-d1", 0⟩, ⟨2, 7, "M-d2", 2⟩] "M-d1" 1).1 =
      [⟨1, 7, "M-d1", 0⟩, ⟨2, 7, "M-d2", 2⟩] := by
  constructor
  · exact c1_deployments_unique_index.1 [⟨1, 7, "M-d1", 0⟩, ⟨2, 7, "M-d2", 2⟩] "M-d1" 1
      (by decide)
  · exact (c1_deployments_unique_index.2.1 [⟨1, 7, "M-d1", 0⟩, ⟨2, 7, "M-d2", 2⟩] "M-d1" 1
      (by decide)).1

/-! ## Runner reservation-timeout trigger

From `backend/controller/sql/schema/001_init.sql`, trigger
`runners_set_reservation_timeout` (BEFORE INSERT OR UPDATE ON runners):

    IF OLD.state != 'reserved' AND NEW.state = 'reserved'
       AND NEW.reservation_timeout IS NULL
    THEN NEW.reservation_timeout = NOW() + INTERVAL '2 minutes';

The condition reads `OLD.state`.  On an INSERT there is no OLD row, so the
condition cannot evaluate to TRUE (in PL/pgSQL referencing OLD on INSERT does
not yield a satisfied condition — under SQL three-valued logic the comparison
is unknown; in strict PL/pgSQL it raises — and in neither case is the
assignment performed).  We model the old row as an `Option` and the condition
as false when it is absent. -/

inductive RunnerState where
  | idle
  | reserved
  | assigned
  | dead
deriving DecidableEq

structure RunnerRow where
  key : String
  state : RunnerState
  reservationTimeout : Option Int
deriving DecidableEq

/-- Two minutes, in seconds. -/
def twoMinutes : Int := 120

/-- The trigger function `runners_set_reservation_timeout`, returning the row
actually written.  `old?` is the OLD row (absent on INSERT); `now` is
`NOW() AT TIME ZONE 'utc'` in seconds. -/
def runners_set_reservation_timeout (old? : Option RunnerRow) (new : RunnerRow)
    (now : Int) : RunnerRow :=
  match old? with
  | some old =>
    if old.state ≠ .reserved ∧ new.state = .reserved ∧ new.reservationTimeout = none then
      { new with reservationTimeout := some (now + twoMinutes) }
    else new
  | none => new

/-- Counterexample to C8: an INSERT directly into state `reserved` with a NULL
`reservation_timeout` is not given a default timeout by the trigger, so the
row is written with `state = reserved` and `reservation_timeout` NULL —
contradicting both the claimed insert behaviour and the claimed invariant. -/
theorem c8_counterexample :
    (runners_set_reservation_timeout none ⟨"r1", .reserved, none⟩ 0).state =
      RunnerState.reserved ∧
    (runners_set_reservation_timeout none ⟨"r1", .reserved, none⟩ 0).reservationTimeout =
      none := by
  exact ⟨rfl, rfl⟩

/-- Claim C8, amended: on an UPDATE that moves a runner from a non-`reserved`
state into `reserved` with a NULL `reservation_timeout`, the trigger sets
`reservation_timeout` to now + 2 minutes; the trigger never changes the state
and never clears an already-set timeout.  (A direct INSERT into `reserved` is
not defaulted, since the trigger condition reads `OLD.state`.) -/
theorem c8_reservation_timeout_trigger :
    (∀ old new now, old.state ≠ RunnerState.reserved → new.state = RunnerState.reserved →
      new.reservationTimeout = none →
      (runners_set_reservation_timeout (some old) new now).reservationTimeout =
        some (now + twoMinutes)) ∧
    (∀ old? new now, (runners_set_reservation_timeout old? new now).state = new.state) ∧
    (∀ old? new now t, new.reservationTimeout = some t →
      (runners_set_reservation_timeout old? new now).reservationTimeout = some t) := by
  refine ⟨?_, ?_, ?_⟩
  · intro old new now h1 h2 h3
    simp [runners_set_reservation_timeout, h1, h2, h3]
  · intro old? new now
    cases old? with
    | none => rfl
    | some old =>
      simp only [runners_set_reservation_timeout]
      split <;> rfl
  · intro old? new now t h
    cases old? with
    | none => exact h
    | some old =>
      simp only [runners_set_reservation_timeout]
      split
      · rename_i hc
        rw [h] at hc
        simp at hc
      · exact h

/-- Witness for C8 (amended): reserving an idle runner via UPDATE with a NULL
timeout yields a 2-minute default. -/
theorem c8_reservation_timeout_trigger_witness :
    (runners_set_reservation_timeout (some ⟨"r1", .idle, none⟩)
      ⟨"r1", .reserved, none⟩ 100).reservationTimeout = some 220 :=
  c8_reservation_timeout_trigger.1 ⟨"r1", .idle, none⟩ ⟨"r1", .reserved, none⟩ 100
    (by decide) rfl rfl

/-! ## Async-call queue and FSM transitions

The DAL code is `StartFSMTransition` from the controller DAL
(src/unnamed/part_004).  The underlying sqlc queries (`CreateAsyncCall`,
`StartFSMTransition`, `AcquireAsyncCall`, and the completion update) are not
under src/ — only their callers and tests are — so they are modelled from the
spec (sections 4.4 and 4.5) below, each marked `Modelled from the spec`. -/

/-- `schema.RefKey`: a `module.name` reference. -/
structure RefKey where
  module : String
  name : String
deriving DecidableEq

/-- `schema.RetryParams`. -/
structure RetryParams where
  count : Int
  minBackoff : Int
  maxBackoff : Int
deriving DecidableEq

/-- `async_call_state` enum from the schema. -/
inductive AsyncCallState where
  | pending
  | executing
  | success
  | error
deriving DecidableEq

/-- A row of the `async_calls` table (columns the claims touch). -/
structure AsyncCallRow where
  id : Nat
  verb : RefKey
  origin : String
  state : AsyncCallState
  scheduledAt : Int
  request : String
  response : Option String
  error : Option String
  remainingAttempts : Int
  backoff : Int
  maxBackoff : Int
  leaseId : Option Nat
deriving DecidableEq

/-- `fsm_status` enum from the schema. -/
inductive FsmStatus where
  | running
  | completed
  | failed
deriving DecidableEq

/-- A row of the `fsm_instances` table. -/
structure FSMInstanceRow where
  fsm : RefKey
  key : String
  status : FsmStatus
  currentState : Option RefKey
  destinationState : Option RefKey
  asyncCallId : Option Nat
deriving DecidableEq

/-- The database state the async queue and FSM executor operate on. -/
structure QueueDb where
  asyncCalls : List AsyncCallRow
  fsmInstances : List FSMInstanceRow
  nextAsyncCallId : Nat
  nextLeaseId : Nat
deriving DecidableEq

def emptyQueueDb : QueueDb := ⟨[], [], 1, 1⟩

/-- Lookup of an FSM instance by the unique `(fsm, key)` pair
(`idx_fsm_instances_fsm_key`). -/
def findFSMInstance (db : QueueDb) (fsm : RefKey) (key : String) : Option FSMInstanceRow :=
  db.fsmInstances.find? (fun r => r.fsm == fsm && r.key == key)

/-- `AsyncOriginFSM.String()`, from the spec: origin `fsm:<fsm_ref>:<key>`. -/
def originFSM (fsm : RefKey) (key : String) : String :=
  "fsm:" ++ fsm.module ++ "." ++ fsm.name ++ ":" ++ key

/-- `sql.CreateAsyncCallParams`. -/
structure CreateAsyncCallParams where
  verb : RefKey
  origin : String
  request : String
  remainingAttempts : Int
  backoff : Int
  maxBackoff : Int
deriving DecidableEq

/-- Modelled from the spec: the sqlc query `CreateAsyncCall` (the queue's
*Enqueue*): "insert with `state='pending', scheduled_at=t, remaining_attempts,
backoff, max_backoff`", returning the fresh row id. -/
def dbCreateAsyncCall (db : QueueDb) (now : Int) (p : CreateAsyncCallParams) :
    Nat × QueueDb :=
  (db.nextAsyncCallId,
    { db with
      asyncCalls := db.asyncCalls ++
        [⟨db.nextAsyncCallId, p.verb, p.origin, .pending, now, p.request, none, none,
          p.remainingAttempts, p.backoff, p.maxBackoff, none⟩],
      nextAsyncCallId := db.nextAsyncCallId + 1 })

/-- Modelled from the spec: the sqlc query `StartFSMTransition` — "Upsert the
FSM instance row: set `destination_state`, bind `async_call_id`, require prior
`destination_state IS NULL`"; when the instance is busy the query updates no
row, which surfaces as `pgx.ErrNoRows`. -/
def dbStartFSMTransition (db : QueueDb) (fsm : RefKey) (key : String) (dest : RefKey)
    (asyncCallId : Nat) : Except GoError QueueDb :=
  match findFSMInstance db fsm key with
  | none =>
    .ok { db with fsmInstances := db.fsmInstances ++
      [⟨fsm, key, .running, none, some dest, some asyncCallId⟩] }
  | some inst =>
    if inst.destinationState = none then
      .ok { db with fsmInstances := db.fsmInstances.map (fun r =>
        if r.fsm == fsm && r.key == key then
          { r with destinationState := some dest, asyncCallId := some asyncCallId }
        else r) }
    else
      .error .pgxErrNoRows

/-- `DAL.StartFSMTransition` from the controller DAL: enqueue the async call,
then start the transition; a *not found* from the underlying query is
translated to `"transition already executing: conflict"`. -/
def StartFSMTransition (db : QueueDb) (now : Int) (fsm : RefKey) (executionKey : String)
    (destinationState : RefKey) (request : String) (retryParams : RetryParams) :
    QueueDb × Option GoError :=
  match dbCreateAsyncCall db now
    ⟨destinationState, originFSM fsm executionKey, request, retryParams.count,
      retryParams.minBackoff, retryParams.maxBackoff⟩ with
  | (asyncCallID, db1) =>
    match dbStartFSMTransition db1 fsm executionKey destinationState asyncCallID with
    | .ok db2 => (db2, none)
    | .error e =>
      if errIs (TranslatePGError e) .errNotFound then
        (db1, some (.wrap "transition already executing" .errConflict))
      else
        (db1, some (.wrap "failed to start FSM transition" (TranslatePGError e)))

/-- Enqueuing an async call does not touch `fsm_instances`. -/
theorem createAsyncCall_fsmInstances (db : QueueDb) (now : Int) (p : CreateAsyncCallParams) :
    ((dbCreateAsyncCall db now p).2).fsmInstances = db.fsmInstances := rfl

/-- Claim C2: starting a transition for an instance that already has one in
flight (`destination_state` not NULL) fails with an error satisfying the
*conflict* sentinel whose message starts with "transition already executing";
the first start for an absent or idle instance succeeds. -/
theorem c2_start_fsm_transition :
    (∀ db now fsm key dest req retry inst,
      findFSMInstance db fsm key = some inst →
      inst.destinationState.isSome = true →
      ∃ e, (StartFSMTransition db now fsm key dest req retry).2 = some e ∧
        errIs e .errConflict = true ∧
        hasPre (messageOf e) "transition already executing" = true ∧
        messageOf e = "transition already executing: conflict") ∧
    (∀ db now fsm key dest req retry,
      findFSMInstance db fsm key = none →
      (StartFSMTransition db now fsm key dest req retry).2 = none) ∧
    (∀ db now fsm key dest req retry inst,
      findFSMInstance db fsm key = some inst →
      inst.destinationState = none →
      (StartFSMTransition db now fsm key dest req retry).2 = none) := by
  refine ⟨?_, ?_, ?_⟩
  · intro db now fsm key dest req retry inst hfind hbusy
    have hdest : inst.destinationState ≠ none := by
      intro hc
      rw [hc] at hbusy
      exact absurd hbusy (by decide)
    refine ⟨.wrap "transition already executing" .errConflict, ?_, by decide, by decide, rfl⟩
    have hfind1 : findFSMInstance (dbCreateAsyncCall db now
        ⟨dest, originFSM fsm key, req, retry.count, retry.minBackoff, retry.maxBackoff⟩).2
        fsm key = some inst := hfind
    simp only [StartFSMTransition, dbStartFSMTransition, hfind1]
    rw [if_neg hdest]
    rfl
  · intro db now fsm key dest req retry hfind
    have hfind1 : findFSMInstance (dbCreateAsyncCall db now
        ⟨dest, originFSM fsm key, req, retry.count, retry.minBackoff, retry.maxBackoff⟩).2
        fsm key = none := hfind
    simp only [StartFSMTransition, dbStartFSMTransition, hfind1]
  · intro db now fsm key dest req retry inst hfind hidle
    have hfind1 : findFSMInstance (dbCreateAsyncCall db now
        ⟨dest, originFSM fsm key, req, retry.count, retry.minBackoff, retry.maxBackoff⟩).2
        fsm key = some inst := hfind
    simp only [StartFSMTransition, dbStartFSMTransition, hfind1]
    rw [if_pos hidle]

/-- Witness for C2, scenario S2: the first `StartFSMTransition` for
`(fsm={test,test}, key="invoiceID")` succeeds; the second, with no Finish in
between, fails with exactly "transition already executing: conflict". -/
theorem c2_start_fsm_transition_witness :
    (StartFSMTransition emptyQueueDb 0 ⟨"test", "test"⟩ "invoiceID" ⟨"module", "verb"⟩
      "req" ⟨0, 0, 0⟩).2 = none ∧
    ∃ e, (StartFSMTransition
        (StartFSMTransition emptyQueueDb 0 ⟨"test", "test"⟩ "invoiceID" ⟨"module", "verb"⟩
          "req" ⟨0, 0, 0⟩).1
        0 ⟨"test", "test"⟩ "invoiceID" ⟨"module", "verb"⟩ "req" ⟨0, 0, 0⟩).2 = some e ∧
      errIs e .errConflict = true ∧
      hasPre (messageOf e) "transition already executing" = true ∧
      messageOf e = "transition already executing: conflict" := by
  constructor
  · exact c2_start_fsm_transition.2.1 emptyQueueDb 0 ⟨"test", "test"⟩ "invoiceID"
      ⟨"module", "verb"⟩ "req" ⟨0, 0, 0⟩ rfl
  · exact c2_start_fsm_transition.1 _ 0 ⟨"test", "test"⟩ "invoiceID" ⟨"module", "verb"⟩
      "req" ⟨0, 0, 0⟩
      ⟨⟨"test", "test"⟩, "invoiceID", .running, none, some ⟨"module", "verb"⟩, some 1⟩
      (by rfl) (by rfl)

/-! ### Acquire and complete (retry with backoff) -/

/-- Modelled from the spec: eligibility for *Acquire* — "the oldest pending or
lease-expired-executing row with `scheduled_at ≤ now`"; a lease-expired
executing row has `lease_id` NULL. -/
def asyncCallEligible (r : AsyncCallRow) (now : Int) : Bool :=
  decide ((r.state = .pending ∨ (r.state = .executing ∧ r.leaseId = none)) ∧
    r.scheduledAt ≤ now)

/-- Earliest eligible call: smallest `scheduled_at`, ties broken by row id. -/
def pickEarliest : List AsyncCallRow → Option AsyncCallRow
  | [] => none
  | r :: rest =>
    match pickEarliest rest with
    | none => some r
    | some s =>
      if r.scheduledAt < s.scheduledAt ∨ (r.scheduledAt = s.scheduledAt ∧ r.id ≤ s.id) then
        some r
      else some s

/-- Modelled from the spec: *Acquire* — select the earliest eligible call,
bind a fresh lease, mark it `executing`; *not found* when the queue has no
eligible call. -/
def acquireAsyncCall (db : QueueDb) (now : Int) :
    Except GoError (AsyncCallRow × QueueDb) :=
  match pickEarliest (db.asyncCalls.filter (fun r => asyncCallEligible r now)) with
  | none => .error .errNotFound
  | some r =>
    .ok ({ r with state := .executing, leaseId := some db.nextLeaseId },
      { db with
        asyncCalls := db.asyncCalls.map (fun c =>
          if c.id == r.id then { r with state := .executing, leaseId := some db.nextLeaseId }
          else c),
        nextLeaseId := db.nextLeaseId + 1 })

/-- Modelled from the spec: the failure branch of *Complete* — "on failure
with `remaining_attempts > 0`, set `state='pending', scheduled_at = now +
backoff, backoff = min(backoff*2, max_backoff), remaining_attempts -= 1,
lease_id = NULL`; on terminal failure, set `state='error', error=…`". -/
def failAsyncCall (now : Int) (msg : String) (r : AsyncCallRow) : AsyncCallRow :=
  if r.remainingAttempts > 0 then
    { r with
      state := .pending
      scheduledAt := now + r.backoff
      backoff := min (r.backoff * 2) r.maxBackoff
      remainingAttempts := r.remainingAttempts - 1
      leaseId := none }
  else
    { r with state := .error, error := some msg }

/-- Completing an acquired call with a failure updates its row in place. -/
def completeAsyncCallFailure (db : QueueDb) (now : Int) (id : Nat) (msg : String) :
    QueueDb :=
  { db with asyncCalls := db.asyncCalls.map (fun r =>
      if r.id == id then failAsyncCall now msg r else r) }

theorem pickEarliest_mem {l : List AsyncCallRow} {r : AsyncCallRow}
    (h : pickEarliest l = some r) : r ∈ l := by
  induction l with
  | nil => exact absurd h (by simp [pickEarliest])
  | cons a rest ih =>
    rw [pickEarliest] at h
    cases hr : pickEarliest rest with
    | none =>
      rw [hr] at h
      exact (Option.some_inj.mp h) ▸ List.mem_cons_self a rest
    | some s =>
      rw [hr] at h
      dsimp only at h
      by_cases hcond : a.scheduledAt < s.scheduledAt ∨
        (a.scheduledAt = s.scheduledAt ∧ a.id ≤ s.id)
      · rw [if_pos hcond] at h
        exact (Option.some_inj.mp h) ▸ List.mem_cons_self a rest
      · rw [if_neg hcond] at h
        have hs := Option.some_inj.mp h
        rw [hs] at hr
        exact List.mem_cons_of_mem a (ih hr)

/-- S6 trace plumbing: the database after a successful acquire. -/
def acquiredDb (r : Except GoError (AsyncCallRow × QueueDb)) (fallback : QueueDb) :
    QueueDb :=
  match r with
  | .ok (_, db) => db
  | .error _ => fallback

/-- S6: enqueue a call with `remaining_attempts=2, backoff=10ms,
max_backoff=1s` at t=0. -/
def s6Db0 : QueueDb :=
  (dbCreateAsyncCall emptyQueueDb 0 ⟨⟨"module", "verb"⟩, "origin", "req", 2, 10, 1000⟩).2

def s6Db1 : QueueDb := acquiredDb (acquireAsyncCall s6Db0 0) emptyQueueDb

def s6Db2 : QueueDb := completeAsyncCallFailure s6Db1 0 1 "failure one"

def s6Db3 : QueueDb := acquiredDb (acquireAsyncCall s6Db2 10) emptyQueueDb

def s6Db4 : QueueDb := completeAsyncCallFailure s6Db3 10 1 "failure two"

def s6Db5 : QueueDb := acquiredDb (acquireAsyncCall s6Db4 30) emptyQueueDb

def s6Db6 : QueueDb := completeAsyncCallFailure s6Db5 30 1 "failure three"

/-- Claim C4: failing a call with `remaining_attempts > 0` returns it to
`pending` at `now + backoff` with the backoff doubled and clamped and the
attempts decremented and the lease cleared; failing with
`remaining_attempts = 0` moves it to `error`; an acquired call always comes
from a non-`error` row that was pending or lease-expired-executing; and the
concrete S6 retry trace holds. -/
theorem c4_async_call_retry :
    (∀ now msg r, r.remainingAttempts > 0 →
      failAsyncCall now msg r =
        { r with
          state := .pending
          scheduledAt := now + r.backoff
          backoff := min (r.backoff * 2) r.maxBackoff
          remainingAttempts := r.remainingAttempts - 1
          leaseId := none }) ∧
    (∀ now msg r, r.remainingAttempts = 0 →
      (failAsyncCall now msg r).state = .error ∧
      (failAsyncCall now msg r).error = some msg) ∧
    (∀ db now call db2, acquireAsyncCall db now = .ok (call, db2) →
      ∃ r ∈ db.asyncCalls, r.id = call.id ∧ r.state ≠ .error ∧ r.scheduledAt ≤ now ∧
        (r.state = .pending ∨ (r.state = .executing ∧ r.leaseId = none))) ∧
    (s6Db2.asyncCalls =
        [⟨1, ⟨"module", "verb"⟩, "origin", .pending, 10, "req", none,
          none, 1, 20, 1000, none⟩] ∧
      acquireAsyncCall s6Db2 9 = .error .errNotFound ∧
      s6Db4.asyncCalls =
        [⟨1, ⟨"module", "verb"⟩, "origin", .pending, 30, "req", none,
          none, 0, 40, 1000, none⟩] ∧
      s6Db6.asyncCalls.map (fun r => (r.state, r.error, r.remainingAttempts)) =
        [(.error, some "failure three", 0)] ∧
      acquireAsyncCall s6Db6 100000 = .error .errNotFound) := by
  refine ⟨?_, ?_, ?_, ?_⟩
  · intro now msg r h
    simp [failAsyncCall, h]
  · intro now msg r h
    rw [failAsyncCall]
    simp [h]
  · intro db now call db2 hacq
    rw [acquireAsyncCall] at hacq
    cases hp : pickEarliest (db.asyncCalls.filter (fun r => asyncCallEligible r now)) with
    | none =>
      rw [hp] at hacq
      exact absurd hacq (by simp)
    | some r =>
      rw [hp] at hacq
      have hmem := pickEarliest_mem hp
      have hmem2 := List.mem_filter.mp hmem
      have helig := of_decide_eq_true hmem2.2
      have hcall : call = { r with state := .executing, leaseId := some db.nextLeaseId } := by
        have := congrArg (fun x => match x with
          | Except.ok (c, _) => c
          | Except.error _ => call) hacq
        exact this.symm
      refine ⟨r, hmem2.1, ?_, ?_, helig.2, helig.1⟩
      · rw [hcall]
      · rcases helig.1 with h1 | h1
        · rw [h1]; decide
        · rw [h1.1]; decide
  · refine ⟨by decide, by rfl, by decide, by decide, by rfl⟩

/-- Witness for C4: the retry branch applied at the concrete S6 row (attempts
2, backoff 10ms, max 1s, failed at t=0), and the terminal branch at the
exhausted row. -/
theorem c4_async_call_retry_witness :
    failAsyncCall 0 "failure one"
        ⟨1, ⟨"module", "verb"⟩, "origin", .executing, 0, "req", none, none, 2, 10, 1000,
          some 1⟩ =
      ⟨1, ⟨"module", "verb"⟩, "origin", .pending, 10, "req", none, none, 1, 20, 1000,
        none⟩ ∧
    (failAsyncCall 30 "failure three"
        ⟨1, ⟨"module", "verb"⟩, "origin", .executing, 30, "req", none, none, 0, 40, 1000,
          some 3⟩).state = .error := by
  constructor
  · have h := c4_async_call_retry.1 0 "failure one"
      ⟨1, ⟨"module", "verb"⟩, "origin", .executing, 0, "req", none, none, 2, 10, 1000,
        some 1⟩ (by decide)
    rw [h]
    decide
  · exact (c4_async_call_retry.2.1 30 "failure three"
      ⟨1, ⟨"module", "verb"⟩, "origin", .executing, 30, "req", none, none, 0, 40, 1000,
        some 3⟩ rfl).1

/-! ## Build engine (`buildengine/engine.go`)

`moduleMetas` and `controllerSchema` are `xsync.MapOf` maps; they are
modelled as association lists (first match wins, keys unique in practice).
A module's schema is reduced to its name, its imports and its `String()`
serialization (used for hashing). -/

/-- `moduleMeta`: module config (its declared dependencies) plus the last
build start time. -/
structure ModuleMeta where
  dependencies : List String
  lastBuildStartTime : Int
deriving DecidableEq

/-- A `schema.Module` as the engine consumes it: name, `Imports()`, and the
`String()` serialization. -/
structure SchemaModule where
  name : String
  imports : List String
  serialized : String
deriving DecidableEq

/-- The engine state `Graph` reads. -/
structure Engine where
  moduleMetas : List (String × ModuleMeta)
  controllerSchema : List (String × SchemaModule)
deriving DecidableEq

/-- The adjacency map `Graph` builds (`map[string][]string`). -/
abbrev GraphMap := List (String × List String)

mutual

/-- `Engine.buildGraph`: short-circuit on memoised nodes, resolve dependencies
preferring `moduleMetas` over `controllerSchema`, record them, recurse.  The
Go recursion is bounded by the memo map; the `fuel` parameter makes that
bound explicit (with fuel larger than the number of known modules it is never
exhausted, since every level of recursion records a new node first). -/
def buildGraph (e : Engine) : Nat → String → GraphMap → Except String GraphMap
  | 0, _, _ => .error "dependency graph too deep"
  | fuel + 1, name, out =>
    if (List.lookup name out).isSome then .ok out
    else
      match List.lookup name e.moduleMetas with
      | some meta =>
        buildGraphDeps e fuel meta.dependencies (out ++ [(name, meta.dependencies)])
      | none =>
        match List.lookup name e.controllerSchema with
        | some sch => buildGraphDeps e fuel sch.imports (out ++ [(name, sch.imports)])
        | none => .error ("module " ++ name ++ " not found")
termination_by fuel name out => (fuel, 0)

/-- The `for _, dep := range deps` loop of `buildGraph` (also the loop in
`Graph` over the requested names). -/
def buildGraphDeps (e : Engine) : Nat → List String → GraphMap → Except String GraphMap
  | _, [], out => .ok out
  | fuel, d :: rest, out =>
    match buildGraph e fuel d out with
    | .ok out2 => buildGraphDeps e fuel rest out2
    | .error msg => .error msg
termination_by fuel l out => (fuel, l.length + 1)

end

/-- Enough fuel for any run over this engine's modules. -/
def graphFuel (e : Engine) : Nat :=
  e.moduleMetas.length + e.controllerSchema.length + 1

/-- `Engine.Graph`: resolve the dependency graph of the given modules (all
local modules when none are given). -/
def Graph (e : Engine) (names : List String) : Except String GraphMap :=
  buildGraphDeps e (graphFuel e)
    (if names.isEmpty then e.moduleMetas.map Prod.fst else names) []

/-- A lookup that succeeds in a list still succeeds in any extension of it. -/
theorem lookup_isPrefix {β : Type} {l1 l2 : List (String × β)} {k : String} {v : β}
    (hp : l1 <+: l2) (h : List.lookup k l1 = some v) : List.lookup k l2 = some v := by
  obtain ⟨t, rfl⟩ := hp
  induction l1 with
  | nil => simp [List.lookup] at h
  | cons p l ih =>
    obtain ⟨a, b⟩ := p
    rw [List.cons_append]
    rw [List.lookup] at h ⊢
    cases hk : (k == a) with
    | true =>
      simp only [hk] at h ⊢
      exact h
    | false =>
      simp only [hk] at h ⊢
      exact ih h

/-- Appending a fresh binding makes it visible. -/
theorem lookup_append_singleton {β : Type} {l : List (String × β)} {k : String} {v : β}
    (h : List.lookup k l = none) : List.lookup k (l ++ [(k, v)]) = some v := by
  induction l with
  | nil => simp [List.lookup]
  | cons p rest ih =>
    obtain ⟨a, b⟩ := p
    rw [List.cons_append]
    rw [List.lookup] at h ⊢
    cases hk : (k == a) with
    | true =>
      simp only [hk] at h
      exact absurd h (by simp)
    | false =>
      simp only [hk] at h ⊢
      exact ih h

/-- `buildGraph`/`buildGraphDeps` only ever append to the memo map. -/
theorem buildGraph_prefix_aux (e : Engine) : ∀ fuel : Nat,
    (∀ name out out2, buildGraph e fuel name out = .ok out2 → out <+: out2) ∧
    (∀ l out out2, buildGraphDeps e fuel l out = .ok out2 → out <+: out2) := by
  intro fuel
  induction fuel with
  | zero =>
    constructor
    · intro name out out2 h
      exact absurd h (by simp [buildGraph])
    · intro l
      induction l with
      | nil =>
        intro out out2 h
        rw [buildGraphDeps] at h
        obtain rfl := Except.ok.inj h
        exact List.prefix_refl out
      | cons d rest ih =>
        intro out out2 h
        rw [buildGraphDeps] at h
        simp [buildGraph] at h
  | succ fuel ih =>
    have hg : ∀ name out out2, buildGraph e (fuel + 1) name out = .ok out2 → out <+: out2 := by
      intro name out out2 h
      rw [buildGraph] at h
      by_cases hmem : (List.lookup name out).isSome
      · rw [if_pos hmem] at h
        obtain rfl := Except.ok.inj h
        exact List.prefix_refl out
      · rw [if_neg hmem] at h
        cases hmeta : List.lookup name e.moduleMetas with
        | some meta =>
          rw [hmeta] at h
          dsimp only at h
          exact List.IsPrefix.trans (List.prefix_append out [(name, meta.dependencies)])
            (ih.2 _ _ _ h)
        | none =>
          rw [hmeta] at h
          dsimp only at h
          cases hsch : List.lookup name e.controllerSchema with
          | some sch =>
            rw [hsch] at h
            dsimp only at h
            exact List.IsPrefix.trans (List.prefix_append out [(name, sch.imports)])
              (ih.2 _ _ _ h)
          | none =>
            rw [hsch] at h
            dsimp only at h
            exact absurd h (by simp)
    refine ⟨hg, ?_⟩
    intro l
    induction l with
    | nil =>
      intro out out2 h
      rw [buildGraphDeps] at h
      obtain rfl := Except.ok.inj h
      exact List.prefix_refl out
    | cons d rest ihl =>
      intro out out2 h
      rw [buildGraphDeps] at h
      cases hbg : buildGraph e (fuel + 1) d out with
      | ok outm =>
        rw [hbg] at h
        dsimp only at h
        exact List.IsPrefix.trans (hg d out outm hbg) (ihl outm out2 h)
      | error msg =>
        rw [hbg] at h
        dsimp only at h
        exact absurd h (by simp)

/-- Scenario S1's engine: local modules `a` (deps `b`) and `b` (deps
`builtin`); `builtin` only in the controller schema, with no imports. -/
def s1Engine : Engine :=
  ⟨[("a", ⟨["b"], 0⟩), ("b", ⟨["builtin"], 0⟩)], [("builtin", ⟨"builtin", [], "mb"⟩)]⟩

/-- Claim C5: `buildGraph` is memoised against the output map (a node already
recorded is returned unchanged), resolves dependencies preferring the local
`moduleMetas` entry over `controllerSchema`, fails when a name is in neither,
and scenario S1 computes `Graph("a") = {a:[b], b:[builtin], builtin:[]}`. -/
theorem c5_graph :
    (∀ e fuel name out, (List.lookup name out).isSome = true →
      buildGraph e (fuel + 1) name out = .ok out) ∧
    (∀ e fuel name out out2 meta,
      List.lookup name out = none →
      List.lookup name e.moduleMetas = some meta →
      buildGraph e (fuel + 1) name out = .ok out2 →
      List.lookup name out2 = some meta.dependencies) ∧
    (∀ e fuel name out,
      List.lookup name out = none →
      List.lookup name e.moduleMetas = none →
      List.lookup name e.controllerSchema = none →
      buildGraph e (fuel + 1) name out = .error ("module " ++ name ++ " not found")) ∧
    Graph s1Engine ["a"] = .ok [("a", ["b"]), ("b", ["builtin"]), ("builtin", [])] := by
  refine ⟨?_, ?_, ?_, ?_⟩
  · intro e fuel name out h
    rw [buildGraph]
    rw [if_pos h]
  · intro e fuel name out out2 meta hout hmeta h
    rw [buildGraph] at h
    rw [if_neg (by simp [hout])] at h
    rw [hmeta] at h
    dsimp only at h
    exact lookup_isPrefix ((buildGraph_prefix_aux e fuel).2 _ _ _ h)
      (lookup_append_singleton hout)
  · intro e fuel name out hout hmeta hsch
    rw [buildGraph]
    rw [if_neg (by simp [hout]), hmeta, hsch]
  · simp [Graph, graphFuel, s1Engine, buildGraphDeps, buildGraph, List.lookup]

/-- S1's engine with an extra (conflicting) controller-schema entry for `a`,
to witness that the local meta's dependencies win. -/
def s1EngineShadowed : Engine :=
  ⟨s1Engine.moduleMetas, ("a", ⟨"a", ["zzz"], "za"⟩) :: s1Engine.controllerSchema⟩

/-- Witness for C5: the memo short-circuit, local preference over a shadowing
controller-schema entry, and unknown-module failure at concrete inputs. -/
theorem c5_graph_witness :
    buildGraph s1Engine 3 "a" [("a", ["x"])] = .ok [("a", ["x"])] ∧
    List.lookup "a" [("a", ["b"]), ("b", ["builtin"]), ("builtin", [])] = some ["b"] ∧
    buildGraph s1Engine 3 "zzz" [] = .error ("module " ++ "zzz" ++ " not found") := by
  refine ⟨?_, ?_, ?_⟩
  · exact c5_graph.1 s1Engine 2 "a" [("a", ["x"])] (by decide)
  · exact c5_graph.2.1 s1EngineShadowed 2 "a" []
      [("a", ["b"]), ("b", ["builtin"]), ("builtin", [])] ⟨["b"], 0⟩ rfl rfl
      (by simp [buildGraph, buildGraphDeps, s1EngineShadowed, s1Engine, List.lookup])
  · exact c5_graph.2.2.1 s1Engine 2 "zzz" [] rfl rfl rfl

/-! ## Dev loop (`watchForModuleChanges`) event handlers

Each `select` branch of the dev loop is embedded as a pure function from the
state it reads to the state it writes plus the build-and-deploy action it
triggers (`none` / the module names passed to `BuildAndDeploy`). -/

/-- The `WatchEventModuleChanged` branch: load the module's meta (warn and
skip when absent), discard the event as stale when its time is strictly
before the recorded `lastBuildStartTime`, otherwise trigger `BuildAndDeploy`
for the module.  Returns the module passed to `BuildAndDeploy`, if any. -/
def handleModuleChanged (metas : List (String × ModuleMeta)) (name : String)
    (eventTime : Int) : Option String :=
  match List.lookup name metas with
  | none => none
  | some meta =>
    if eventTime < meta.lastBuildStartTime then none
    else some name

/-- The `WatchEventModuleAdded` branch: only when the module is not already
in `moduleMetas`, register a fresh meta (zero `lastBuildStartTime`) and
trigger `BuildAndDeploy` for it.  Returns the new metas map and the module
passed to `BuildAndDeploy`, if any. -/
def handleModuleAdded (metas : List (String × ModuleMeta)) (name : String)
    (deps : List String) : List (String × ModuleMeta) × Option String :=
  if (List.lookup name metas).isSome then (metas, none)
  else (metas ++ [(name, ⟨deps, 0⟩)], some name)

/-- Claim C6: a module-changed event strictly older than the module's last
build start time is discarded (no `BuildAndDeploy`); an event at or after it
triggers `BuildAndDeploy` for that module. -/
theorem c6_stale_event_dropped :
    ∀ metas name t meta, List.lookup name metas = some meta →
      ((t < meta.lastBuildStartTime → handleModuleChanged metas name t = none) ∧
       (meta.lastBuildStartTime ≤ t → handleModuleChanged metas name t = some name)) := by
  intro metas name t meta h
  constructor
  · intro hlt
    simp [handleModuleChanged, h, hlt]
  · intro hge
    simp [handleModuleChanged, h, not_lt.mpr hge]

/-- Witness for C6: with `lastBuildStartTime = 100`, the event at t=99 is
dropped and the event at t=100 triggers a build. -/
theorem c6_stale_event_dropped_witness :
    handleModuleChanged [("m", ⟨[], 100⟩)] "m" 99 = none ∧
    handleModuleChanged [("m", ⟨[], 100⟩)] "m" 100 = some "m" :=
  ⟨(c6_stale_event_dropped [("m", ⟨[], 100⟩)] "m" 99 ⟨[], 100⟩ rfl).1 (by decide),
   (c6_stale_event_dropped [("m", ⟨[], 100⟩)] "m" 100 ⟨[], 100⟩ rfl).2 (by decide)⟩

/-- Claim C10: a module-added event for a name already in `moduleMetas` is
ignored — metas unchanged, no `BuildAndDeploy`; a genuinely new name is
registered (with zero last-build time) and triggers a build-and-deploy. -/
theorem c10_module_added_ignored_when_known :
    (∀ metas name deps, (List.lookup name metas).isSome = true →
      handleModuleAdded metas name deps = (metas, none)) ∧
    (∀ metas name deps, List.lookup name metas = none →
      handleModuleAdded metas name deps = (metas ++ [(name, ⟨deps, 0⟩)], some name) ∧
      List.lookup name (handleModuleAdded metas name deps).1 = some ⟨deps, 0⟩) := by
  constructor
  · intro metas name deps h
    simp [handleModuleAdded, h]
  · intro metas name deps h
    refine ⟨by simp [handleModuleAdded, h], ?_⟩
    simp only [handleModuleAdded, h, Option.isSome_none, Bool.false_eq_true, if_false]
    exact lookup_append_singleton h

/-- Witness for C10: adding `m` when it is known leaves the metas unchanged;
adding `n` registers it and triggers its build. -/
theorem c10_module_added_ignored_when_known_witness :
    handleModuleAdded [("m", ⟨["d"], 7⟩)] "m" [] = ([("m", ⟨["d"], 7⟩)], none) ∧
    handleModuleAdded [("m", ⟨["d"], 7⟩)] "n" ["m"] =
      ([("m", ⟨["d"], 7⟩), ("n", ⟨["m"], 0⟩)], some "n") :=
  ⟨c10_module_added_ignored_when_known.1 [("m", ⟨["d"], 7⟩)] "m" [] (by decide),
   (c10_module_added_ignored_when_known.2 [("m", ⟨["d"], 7⟩)] "n" ["m"] rfl).1⟩

/-! ### Schema-change events -/

/-- `ftlv1.DeploymentChangeType`. -/
inductive DeploymentChangeType where
  | added
  | changed
  | removed
deriving DecidableEq

/-- `computeModuleHash`: sha256 of `module.String()`.  SHA-256 is modelled by
the serialized text itself: the code uses hash equality only as a proxy for
equality of the serialization. -/
def computeModuleHash (m : SchemaModule) : String := m.serialized

/-- `Engine.getDependentModuleNames`: the local modules that declare
`moduleName` among their dependencies. -/
def getDependentModuleNames (metas : List (String × ModuleMeta)) (moduleName : String) :
    List String :=
  (metas.filter (fun p => p.2.dependencies.contains moduleName)).map Prod.fst

/-- Go map assignment `moduleHashes[name] = hash`: replace or append. -/
def insertHash (hashes : List (String × String)) (name h : String) :
    List (String × String) :=
  if (List.lookup name hashes).isSome then
    hashes.map (fun p => if p.1 == name then (p.1, h) else p)
  else hashes ++ [(name, h)]

/-- The schema-change branch of the dev loop: ignore anything that is not
`DEPLOYMENT_CHANGED`; recompute the module hash and ignore the event when it
matches the stored hash (a missing stored hash never matches, as in Go where
`moduleHashes[name]` is empty and a sha256 digest never is); otherwise store
the new hash and trigger `BuildAndDeploy` on the dependent local modules.
Returns the updated `moduleHashes` and the modules passed to
`BuildAndDeploy` (none are passed when the dependent list is empty). -/
def handleSchemaChange (hashes : List (String × String))
    (metas : List (String × ModuleMeta)) (changeType : DeploymentChangeType)
    (m : SchemaModule) : List (String × String) × List String :=
  if changeType ≠ .changed then (hashes, [])
  else if List.lookup m.name hashes = some (computeModuleHash m) then (hashes, [])
  else (insertHash hashes m.name (computeModuleHash m), getDependentModuleNames metas m.name)

/-- After `insertHash`, the stored hash for the name is the new one. -/
theorem lookup_insertHash (hashes : List (String × String)) (name h : String) :
    List.lookup name (insertHash hashes name h) = some h := by
  rw [insertHash]
  by_cases hs : (List.lookup name hashes).isSome
  · rw [if_pos hs]
    induction hashes with
    | nil => simp [List.lookup] at hs
    | cons p rest ih =>
      obtain ⟨a, b⟩ := p
      rw [List.map_cons]
      rw [List.lookup] at hs
      cases hk : (name == a) with
      | true =>
        have ha : a == name := by
          have := eq_of_beq hk
          subst this
          exact hk
        simp only [ha, if_true]
        rw [List.lookup, hk]
      | false =>
        have ha : (a == name) = false := by
          cases hq : (a == name) with
          | false => rfl
          | true =>
            have := eq_of_beq hq
            subst this
            rw [hq] at hk
            exact hk
        simp only [ha, Bool.false_eq_true, if_false]
        rw [List.lookup, hk]
        simp only [hk] at hs
        exact ih hs
  · rw [if_neg hs]
    exact lookup_append_singleton (Option.not_isSome_iff_eq_none.mp hs)

/-- Claim C7: a `CHANGED` schema event whose hash equals the stored hash is
ignored (hashes unchanged, no rebuild); on a differing hash the stored hash
is updated and exactly the local modules that declare the changed module
among their dependencies are passed to `BuildAndDeploy`; hence processing the
same schema twice is a no-op the second time. -/
theorem c7_schema_change_hash_gate :
    (∀ hashes metas m, List.lookup m.name hashes = some (computeModuleHash m) →
      handleSchemaChange hashes metas .changed m = (hashes, [])) ∧
    (∀ hashes metas m, List.lookup m.name hashes ≠ some (computeModuleHash m) →
      (handleSchemaChange hashes metas .changed m).1 =
        insertHash hashes m.name (computeModuleHash m) ∧
      List.lookup m.name (handleSchemaChange hashes metas .changed m).1 =
        some (computeModuleHash m) ∧
      (handleSchemaChange hashes metas .changed m).2 =
        getDependentModuleNames metas m.name ∧
      (∀ n, n ∈ (handleSchemaChange hashes metas .changed m).2 ↔
        ∃ meta, (n, meta) ∈ metas ∧ meta.dependencies.contains m.name = true)) ∧
    (∀ hashes metas m,
      handleSchemaChange ((handleSchemaChange hashes metas .changed m).1) metas .changed m =
        (((handleSchemaChange hashes metas .changed m).1), [])) := by
  have hchanged : (DeploymentChangeType.changed ≠ DeploymentChangeType.changed) = False := by
    simp
  refine ⟨?_, ?_, ?_⟩
  · intro hashes metas m h
    simp [handleSchemaChange, h]
  · intro hashes metas m h
    refine ⟨by simp [handleSchemaChange, h], ?_, by simp [handleSchemaChange, h], ?_⟩
    · simp only [handleSchemaChange, hchanged, ne_eq, not_false_iff, if_false]
      rw [if_neg (by simpa using h)]
      exact lookup_insertHash hashes m.name (computeModuleHash m)
    · intro n
      simp only [handleSchemaChange, hchanged, ne_eq, not_false_iff, if_false]
      rw [if_neg (by simpa using h)]
      simp only [getDependentModuleNames, List.mem_map, List.mem_filter]
      constructor
      · rintro ⟨⟨a, meta⟩, ⟨hmem, hdep⟩, rfl⟩
        exact ⟨meta, hmem, hdep⟩
      · rintro ⟨meta, hmem, hdep⟩
        exact ⟨(n, meta), ⟨hmem, hdep⟩, rfl⟩
  · intro hashes metas m
    by_cases h : List.lookup m.name hashes = some (computeModuleHash m)
    · have h1 : handleSchemaChange hashes metas .changed m = (hashes, []) := by
        simp [handleSchemaChange, h]
      rw [h1]
      simp [handleSchemaChange, h]
    · have h2 : List.lookup m.name (handleSchemaChange hashes metas .changed m).1 =
          some (computeModuleHash m) := by
        simp only [handleSchemaChange, hchanged, ne_eq, not_false_iff, if_false]
        rw [if_neg (by simpa using h)]
        exact lookup_insertHash hashes m.name (computeModuleHash m)
      generalize hg : (handleSchemaChange hashes metas .changed m).1 = hs at h2 ⊢
      simp [handleSchemaChange, h2]

/-- Witness for C7: with modules `a` (deps `b`) and `c` (deps `builtin`), a
`CHANGED` event for `b` with a fresh hash rebuilds exactly `a`; the identical
event again is ignored. -/
theorem c7_schema_change_hash_gate_witness :
    handleSchemaChange [("b", "old")] [("a", ⟨["b"], 0⟩), ("c", ⟨["builtin"], 0⟩)]
      .changed ⟨"b", [], "module b v2"⟩ = ([("b", "module b v2")], ["a"]) ∧
    handleSchemaChange [("b", "module b v2")]
      [("a", ⟨["b"], 0⟩), ("c", ⟨["builtin"], 0⟩)] .changed ⟨"b", [], "module b v2"⟩ =
      ([("b", "module b v2")], []) := by
  constructor
  · have h := c7_schema_change_hash_gate.2.1 [("b", "old")]
      [("a", ⟨["b"], 0⟩), ("c", ⟨["builtin"], 0⟩)] ⟨"b", [], "module b v2"⟩ (by decide)
    have h1 := h.1
    have h3 := h.2.2.1
    have : handleSchemaChange [("b", "old")] [("a", ⟨["b"], 0⟩), ("c", ⟨["builtin"], 0⟩)]
        .changed ⟨"b", [], "module b v2"⟩ =
        ((handleSchemaChange [("b", "old")] [("a", ⟨["b"], 0⟩), ("c", ⟨["builtin"], 0⟩)]
          .changed ⟨"b", [], "module b v2"⟩).1,
         (handleSchemaChange [("b", "old")] [("a", ⟨["b"], 0⟩), ("c", ⟨["builtin"], 0⟩)]
          .changed ⟨"b", [], "module b v2"⟩).2) := rfl
    rw [this, h1, h3]
    decide
  · exact c7_schema_change_hash_gate.1 [("b", "module b v2")]
      [("a", ⟨["b"], 0⟩), ("c", ⟨["builtin"], 0⟩)] ⟨"b", [], "module b v2"⟩ (by decide)

/-! ## `buildWithCallback` / `tryBuild`: group builds and error collection

The external compiler plus the subsequent schema-file load (spec: an opaque
`Build(schema, module, transaction)` operation) is abstracted as a function
from the module name to its outcome; `tryBuild`'s control flow — the
must-build gate, the controller-schema shortcut, the missing-dependency skip
— is embedded from the source. -/

/-- Result of invoking the external compiler and loading the emitted schema
for one module. -/
inductive BuildOutcome where
  | ok (sch : SchemaModule)
  | err (msg : String)
deriving DecidableEq

/-- What one `tryBuild` worker contributes: a schema on the channel, nothing
(skip with a warning), or an error on `errCh`. -/
inductive TryBuildResult where
  | emitted (sch : SchemaModule)
  | skipped
  | failed (msg : String)
deriving DecidableEq

/-- `schema.Builtins()`, the root of the built-modules map. -/
def builtinsModule : SchemaModule := ⟨"builtin", [], "module builtin"⟩

/-- `Engine.tryBuild`: a module outside the must-build set emits its
controller schema when present (else builds); a must-build module whose meta
is missing fails; one with a dependency absent from the accumulated built
map is skipped with a warning and no error; otherwise it builds. -/
def tryBuild (mustBuild : List String) (e : Engine) (buildFn : String → BuildOutcome)
    (built : List (String × SchemaModule)) (name : String) : TryBuildResult :=
  if mustBuild.contains name = false then
    match List.lookup name e.controllerSchema with
    | some sch => .emitted sch
    | none =>
      match buildFn name with
      | .ok sch => .emitted sch
      | .err msg => .failed msg
  else
    match List.lookup name e.moduleMetas with
    | none => .failed ("module " ++ name ++ " not found")
    | some meta =>
      if meta.dependencies.any (fun d => (List.lookup d built).isNone) then .skipped
      else
        match buildFn name with
        | .ok sch => .emitted sch
        | .err msg => .failed msg

/-- One topological group: every member runs `tryBuild` against the built map
as it stood when the group started; emitted schemas are merged in only after
the whole group finishes, and errors are appended to the error channel. -/
def processGroup (mustBuild : List String) (e : Engine) (buildFn : String → BuildOutcome)
    (acc : List (String × SchemaModule) × List String) (group : List String) :
    List (String × SchemaModule) × List String :=
  (acc.1 ++ group.filterMap (fun n =>
      match tryBuild mustBuild e buildFn acc.1 n with
      | .emitted sch => some (sch.name, sch)
      | _ => none),
   acc.2 ++ group.filterMap (fun n =>
      match tryBuild mustBuild e buildFn acc.1 n with
      | .failed msg => some msg
      | _ => none))

/-- `Engine.buildWithCallback` after topological sorting: fold the groups,
starting from the built map seeded with `builtin`, collecting all worker
errors (Go joins them with `errors.Join`). -/
def buildWithCallback (mustBuild : List String) (e : Engine)
    (buildFn : String → BuildOutcome) (topology : List (List String)) :
    List (String × SchemaModule) × List String :=
  topology.foldl (processGroup mustBuild e buildFn) ([("builtin", builtinsModule)], [])

/-- A `tryBuild` failure for a module whose meta exists is always the build
function's own error for that module. -/
theorem tryBuild_failed {mustBuild : List String} {e : Engine}
    {buildFn : String → BuildOutcome} {built : List (String × SchemaModule)}
    {name : String} {msg : String}
    (htb : tryBuild mustBuild e buildFn built name = .failed msg)
    (hmeta : (List.lookup name e.moduleMetas).isSome = true) :
    ∃ n, buildFn n = .err msg := by
  rw [tryBuild] at htb
  by_cases hmb : mustBuild.contains name = false
  · rw [if_pos hmb] at htb
    cases hcs : List.lookup name e.controllerSchema with
    | some sch =>
      rw [hcs] at htb
      exact absurd htb (by simp)
    | none =>
      rw [hcs] at htb
      dsimp only at htb
      cases hbf : buildFn name with
      | ok sch =>
        rw [hbf] at htb
        exact absurd htb (by simp)
      | err m2 =>
        rw [hbf] at htb
        dsimp only at htb
        exact ⟨name, by rw [hbf, TryBuildResult.failed.inj htb]⟩
  · rw [if_neg hmb] at htb
    cases hm : List.lookup name e.moduleMetas with
    | none =>
      rw [hm] at hmeta
      exact absurd hmeta (by simp)
    | some meta =>
      rw [hm] at htb
      dsimp only at htb
      by_cases hd : meta.dependencies.any (fun d => (List.lookup d built).isNone) = true
      · rw [if_pos hd] at htb
        exact absurd htb (by simp)
      · rw [if_neg hd] at htb
        cases hbf : buildFn name with
        | ok sch =>
          rw [hbf] at htb
          exact absurd htb (by simp)
        | err m2 =>
          rw [hbf] at htb
          dsimp only at htb
          exact ⟨name, by rw [hbf, TryBuildResult.failed.inj htb]⟩

/-- Folding the groups preserves error provenance. -/
theorem buildRun_errors_aux (mustBuild : List String) (e : Engine)
    (buildFn : String → BuildOutcome) :
    ∀ (topology : List (List String)) (acc : List (String × SchemaModule) × List String),
      (∀ g ∈ topology, ∀ n ∈ g, (List.lookup n e.moduleMetas).isSome = true) →
      (∀ msg ∈ acc.2, ∃ n, buildFn n = .err msg) →
      ∀ msg ∈ (topology.foldl (processGroup mustBuild e buildFn) acc).2,
        ∃ n, buildFn n = .err msg := by
  intro topology
  induction topology with
  | nil =>
    intro acc htop hacc msg hmsg
    exact hacc msg hmsg
  | cons g rest ih =>
    intro acc htop hacc msg hmsg
    rw [List.foldl_cons] at hmsg
    refine ih _ (fun g2 hg2 => htop g2 (List.mem_cons_of_mem _ hg2)) ?_ msg hmsg
    intro m hm
    rw [processGroup] at hm
    rcases List.mem_append.mp hm with hc | hc
    · exact hacc m hc
    · obtain ⟨n, hng, hmatch⟩ := List.mem_filterMap.mp hc
      cases htb : tryBuild mustBuild e buildFn acc.1 n with
      | emitted sch =>
        rw [htb] at hmatch
        exact absurd hmatch (by simp)
      | skipped =>
        rw [htb] at hmatch
        exact absurd hmatch (by simp)
      | failed fmsg =>
        rw [htb] at hmatch
        dsimp only at hmatch
        obtain rfl := Option.some_inj.mp hmatch
        exact tryBuild_failed htb (htop g (List.mem_cons_self _ _) n hng)

/-- Claim C9: a must-build module with a dependency absent from the
accumulated built map is skipped with no error, and every error collected by
a `buildWithCallback` run over modules with metas is the build (or schema
load) failure of some module itself — never a skipped dependent. -/
theorem c9_skipped_dependents_contribute_no_error :
    (∀ mustBuild e buildFn built name meta d,
      mustBuild.contains name = true →
      List.lookup name e.moduleMetas = some meta →
      d ∈ meta.dependencies →
      List.lookup d built = none →
      tryBuild mustBuild e buildFn built name = .skipped) ∧
    (∀ mustBuild e buildFn topology,
      (∀ g ∈ topology, ∀ n ∈ g, (List.lookup n e.moduleMetas).isSome = true) →
      ∀ msg ∈ (buildWithCallback mustBuild e buildFn topology).2,
        ∃ n, buildFn n = .err msg) := by
  constructor
  · intro mustBuild e buildFn built name meta d hmb hmeta hd hmiss
    rw [tryBuild]
    rw [if_neg (by rw [hmb]; simp), hmeta]
    dsimp only
    rw [if_pos (List.any_eq_true.mpr ⟨d, hd, by simp [hmiss]⟩)]
  · intro mustBuild e buildFn topology htop msg hmsg
    exact buildRun_errors_aux mustBuild e buildFn topology ([("builtin", builtinsModule)], [])
      htop (by intro m hm; exact absurd hm (by simp)) msg hmsg

/-- The concrete scenario for the C9 witness: `x` (no deps) fails to build,
`y` (depends on `x`) is therefore skipped in the next group. -/
def e9 : Engine := ⟨[("x", ⟨[], 0⟩), ("y", ⟨["x"], 0⟩)], []⟩

def buildFn9 : String → BuildOutcome :=
  fun n => if n == "x" then .err "boom" else .ok ⟨n, [], n⟩

/-- Witness for C9: in the run `[[x],[y]]` with `x` failing, `y` is skipped
and the collected errors are exactly `x`'s own build error. -/
theorem c9_skipped_dependents_contribute_no_error_witness :
    tryBuild ["x", "y"] e9 buildFn9 [("builtin", builtinsModule)] "y" = .skipped ∧
    (buildWithCallback ["x", "y"] e9 buildFn9 [["x"], ["y"]]).2 = ["boom"] ∧
    ∃ n, buildFn9 n = .err "boom" := by
  refine ⟨?_, by decide, ?_⟩
  · exact c9_skipped_dependents_contribute_no_error.1 ["x", "y"] e9 buildFn9
      [("builtin", builtinsModule)] "y" ⟨["x"], 0⟩ "x" (by decide) rfl (by decide) rfl
  · exact c9_skipped_dependents_contribute_no_error.2 ["x", "y"] e9 buildFn9 [["x"], ["y"]]
      (by decide) "boom" (by decide)

end FTL
